import Mathlib

/-!
Shallow embedding in Lean 4 of the core routines of the pyDis
Peierls–Nabarro pipeline (`pyDis/pn/_pn_control.py` and
`pyDis/pn/read_gsf.py`), together with theorems settling the
specification claims about configuration resolution, elasticity-mode
dispatch, GSF energy extraction, and toroidal grid repair.

Floating-point energies are modelled as `Option ℚ`: `none` stands for
IEEE NaN (which in Python satisfies `x != x`), `some q` for an ordinary
numeric value.  Arithmetic on such values propagates `none` exactly as
IEEE arithmetic propagates NaN through `+` and `*`.
-/

namespace PyDis

/-- NaN-propagating addition on `Option ℚ` values: mirrors IEEE `+`
where `none` plays the role of NaN. -/
def optAdd : Option ℚ → Option ℚ → Option ℚ
  | some a, some b => some (a + b)
  | _, _ => none

/-- NaN-propagating scalar multiple, mirroring `0.5*(...)` in the source. -/
def optHalf : Option ℚ → Option ℚ
  | some a => some (a / 2)
  | none => none

/-! ## Elasticity-mode dispatch

Embeds `_pn_control.py`, `handle_pn_control` lines 254–269: after the
`&elast` namelist is resolved, the elasticity parameterization is chosen
by testing `k_parallel`, then `cij`, then `shear` together with
`poisson` or `bulk`.  A card that was not supplied holds Python `None`,
modelled as `Option.none`; a card that was supplied holds `some` value
(the payload itself is irrelevant to the dispatch, which only tests
against `None`). -/

inductive ElastMode where
  | specific
  | aniso
  | iso_nu
  | iso_bulk
deriving DecidableEq, Repr

/-- The dispatch over the resolved `&elast` cards, exactly as the chain
of `if`/`elif` tests in `handle_pn_control`: `k_parallel` first, then
`cij`, then `shear` guarded selection between `poisson` and `bulk`,
otherwise the fatal `AttributeError`. -/
def elastDispatch (k_parallel cij shear poisson bulk : Option ℚ) :
    Except String ElastMode :=
  if k_parallel.isSome then .ok .specific
  else if cij.isSome then .ok .aniso
  else if shear.isSome then
    if poisson.isSome then .ok .iso_nu
    else if bulk.isSome then .ok .iso_bulk
    else .error "No elastic properties have been provided."
  else .error "No elastic properties have been provided."

/-! ## GSF energy extraction

Embeds `read_gsf.py`, `get_gsf_energy` lines 50–103.  The file-system
and regular-expression front end is abstracted into the function's
observable inputs: the list of `(energy, units)` capture pairs produced
by `re.findall`, whether a GULP failure flag appears in the output text,
and the result of the `Final Gnorm` search (`none` when the pattern is
absent).  The body's control flow is embedded exactly: when no energy
matched, the result is `(NaN, None)`; when the program (lowercased) is
`gulp`, the gnorm test selects either the last match or `(NaN, None)`;
for any other program the local variables `E` and `units` are never
assigned, which Python reports as an `UnboundLocalError` at the
`return` statement. -/

/-- Outcome of `get_gsf_energy`: either a normal return of
`(E, units)` — with `none` standing for NaN / Python `None` — or a
raised exception. -/
inductive GsfResult where
  /-- normal return carrying the energy (`none` = NaN) and units
  (`none` = Python `None`). -/
  | ret (E : Option ℚ) (units : Option String)
  /-- `UnboundLocalError`: `return E, units` with `E` never assigned. -/
  | unboundLocal
  /-- `AttributeError`: `get_gnorm.search(...)` returned `None` but was
  dereferenced. -/
  | attrError
deriving DecidableEq, Repr

/-- ASCII lower-casing of a string, as Python's `str.lower` acts on the
program names used here. -/
def pyLower (s : String) : String :=
  ⟨s.data.map Char.toLower⟩

/-- The decision core of `get_gsf_energy`.  `matched` is the list of
`(E, units)` pairs found by `re.findall`; `flagged` says whether either
GULP non-convergence marker occurs in the output text; `gnormFound` is
the numeric payload of the `Final Gnorm` search, `none` when the
pattern is absent from the file. -/
def get_gsf_energy (prog : String) (matched : List (ℚ × String))
    (flagged : Bool) (gnormFound : Option ℚ) : GsfResult :=
  if matched.isEmpty then
    .ret none none
  else
    if pyLower prog = "gulp" then
      -- gnorm := parsed Final Gnorm when a failure flag is present, else 0
      match (if flagged then gnormFound.map some else some (some 0)) with
      | none => .attrError
      | some none => .attrError
      | some (some gnorm) =>
        if gnorm < (2 : ℚ)/10 then
          -- `for match in matched_energies: E = ...` keeps the last pair
          match matched.getLast? with
          | some (E, u) => .ret (some E) (some u)
          | none => .unboundLocal
        else
          .ret none none
    else
      .unboundLocal

/-! ## 1D grid repair

Embeds `read_gsf.py`, `main` lines 134–146 (the gamma-line branch).
The grid is a list of `x_max + 1` energies, `none` marking a NaN entry.
The loop walks the indices in increasing order; a NaN entry is
overwritten in place with half the sum of its two neighbours at
`(i-1) % (x_max+1)` and `(i+1) % (x_max+1)` (Python modulus), and if
that average is itself NaN — which IEEE arithmetic produces as soon as
either neighbour is NaN at that moment — the run aborts with
`ValueError("Too many NaN values.")`. -/

/-- Python's `%` on an integer with a natural modulus (result in
`[0, n)` for `n > 0`), as used for the toroidal neighbour indices. -/
def pyMod (a : ℤ) (n : ℕ) : ℕ :=
  (a % (n : ℤ)).toNat

/-- One iteration of the 1D NaN-repair loop at index `i`. -/
def repair1dStep (es : List (Option ℚ)) (i : ℕ) :
    Except String (List (Option ℚ)) :=
  if (es.getD i none).isSome then .ok es
  else
    match optHalf (optAdd (es.getD (pyMod ((i : ℤ) - 1) es.length) none)
                          (es.getD (pyMod ((i : ℤ) + 1) es.length) none)) with
    | none => .error "Too many NaN values."
    | some v => .ok (es.set i (some v))

/-- The full 1D repair pass: the loop `for i in range(x_max+1)` of
`read_gsf.main`, threading the in-place mutation of `energies`. -/
def repair1d (es : List (Option ℚ)) : Except String (List (Option ℚ)) :=
  (List.range es.length).foldlM repair1dStep es

/-! ## 2D grid repair

Embeds `read_gsf.py`, `main` lines 159–190 (the gamma-surface branch).
The grid has `x_max + 1` rows and `y_max + 1` columns; `E_perfect` is
read from cell `(0, 0)` before the sweep.  A cell is invalid-or-suspect
when it is NaN or more than `1.0` below `E_perfect`.  The four
neighbour signatures are taken — exactly as in the source — at row
indices modulo `x_max` (not `x_max + 1`) and column indices modulo
`y_max` (not `y_max + 1`).  A bad cell is overwritten in place with the
mean of the valid signature values, or with the sentinel `-10000` (and
a warning) when no signature value is valid.  The sweep never raises:
the `raise Exception` for the zero-neighbour case is commented out in
the source.  (With `x_max = 0` or `y_max = 0` Python's `%` would raise
`ZeroDivisionError`; the theorems below therefore assume both are
positive.) -/

/-- The invalid-or-suspect test `e != e or e < E_perfect - 1.`
(`ref` is `E_perfect`; a NaN reference makes every `<` comparison
false, as in IEEE). -/
def isBad (ref v : Option ℚ) : Bool :=
  match v, ref with
  | none, _ => true
  | some _, none => false
  | some q, some r => decide (q < r - 1)

/-- The value a neighbour contributes to the repair average: `none` if
the neighbour is NaN or suspect (the two `pass` branches), otherwise
its value. -/
def validVal (ref v : Option ℚ) : Option ℚ :=
  match v with
  | none => none
  | some q => if isBad ref (some q) then none else some q

/-- Pointwise update of a two-index grid, the in-place
`energies[i, j] = v`. -/
def upd2 (g : ℕ → ℕ → Option ℚ) (i j : ℕ) (v : Option ℚ) :
    ℕ → ℕ → Option ℚ :=
  fun a b => if a = i ∧ b = j then v else g a b

/-- The four neighbour signatures of `(i, j)`, in source order:
`((i+1) % x_max, j)`, `((i-1) % x_max, j)`, `(i, (j+1) % y_max)`,
`(i, (j-1) % y_max)`. -/
def neighbors2d (x_max y_max i j : ℕ) : List (ℕ × ℕ) :=
  [(pyMod ((i : ℤ) + 1) x_max, j),
   (pyMod ((i : ℤ) - 1) x_max, j),
   (i, pyMod ((j : ℤ) + 1) y_max),
   (i, pyMod ((j : ℤ) - 1) y_max)]

/-- Mutable state of the 2D sweep: the grid plus the number of
"Warning: no real neighbours." messages printed so far. -/
structure Grid2State where
  g : ℕ → ℕ → Option ℚ
  warnings : ℕ

/-- The inner neighbour loop: the list of valid signature values,
whose sum is `approx_energy` and whose length is `num_real`. -/
def neighborVals (x_max y_max : ℕ) (ref : Option ℚ)
    (gf : ℕ → ℕ → Option ℚ) (i j : ℕ) : List ℚ :=
  ((neighbors2d x_max y_max i j).map fun q => gf q.1 q.2).filterMap
    (validVal ref)

/-- One iteration of the 2D repair loop at cell `p`: a valid cell is
left alone; a bad cell receives the mean of its valid signature values,
or the sentinel `-10000` plus a warning when `num_real == 0`. -/
def repair2dStep (x_max y_max : ℕ) (ref : Option ℚ) (st : Grid2State)
    (p : ℕ × ℕ) : Grid2State :=
  if isBad ref (st.g p.1 p.2) then
    if (neighborVals x_max y_max ref st.g p.1 p.2).length = 0 then
      { g := upd2 st.g p.1 p.2 (some (-10000)), warnings := st.warnings + 1 }
    else
      { g := upd2 st.g p.1 p.2
          (some ((neighborVals x_max y_max ref st.g p.1 p.2).sum /
                 (neighborVals x_max y_max ref st.g p.1 p.2).length)),
        warnings := st.warnings }
  else
    st

/-- Row-major enumeration of the grid cells, matching the nested
`for i ... for j ...` loops. -/
def rowMajor (x_max y_max : ℕ) : List (ℕ × ℕ) :=
  List.product (List.range (x_max + 1)) (List.range (y_max + 1))

/-- The full 2D repair sweep, with `E_perfect` read from the original
cell `(0, 0)` before any repair. -/
def repair2d (x_max y_max : ℕ) (g : ℕ → ℕ → Option ℚ) : Grid2State :=
  (rowMajor x_max y_max).foldl (repair2dStep x_max y_max (g 0 0))
    { g := g, warnings := 0 }

/-- Written from the claim's words, for comparison with the source:
the claim's four toroidal neighbours of `(i, j)` wrap the row index
modulo the row count `x_max + 1` and the column index modulo the
column count `y_max + 1`. -/
def claimNeighbors2d (x_max y_max i j : ℕ) : List (ℕ × ℕ) :=
  [(pyMod ((i : ℤ) + 1) (x_max + 1), j),
   (pyMod ((i : ℤ) - 1) (x_max + 1), j),
   (i, pyMod ((j : ℤ) + 1) (y_max + 1)),
   (i, pyMod ((j : ℤ) - 1) (y_max + 1))]

/-- Written from the claim's words: the replacement value the claim
predicts for a bad cell — the average of the valid values among its
toroidal (modulo `x_max + 1` / `y_max + 1`) neighbours. -/
def claimRepairValue (x_max y_max : ℕ) (g : ℕ → ℕ → Option ℚ)
    (i j : ℕ) : Option ℚ :=
  let vals := ((claimNeighbors2d x_max y_max i j).map
    fun q => g q.1 q.2).filterMap (validVal (g 0 0))
  if vals.length = 0 then none else some (vals.sum / vals.length)

/-- A 3×3 grid (`x_max = y_max = 2`) whose only bad cell is the NaN at
`(0, 1)`; rows 1 and 2 differ in column 1, so the modulus choice is
observable. -/
def cexGrid : ℕ → ℕ → Option ℚ := fun i j =>
  if i = 0 ∧ j = 1 then none
  else if i = 1 ∧ j = 1 then some 4
  else if i = 2 ∧ j = 1 then some 8
  else some 0

/-- A 3×3 grid whose only bad cell is the NaN at `(1, 1)`, used to
exhibit a successful neighbour-average repair. -/
def wGrid : ℕ → ℕ → Option ℚ := fun i j =>
  if i = 1 ∧ j = 1 then none
  else if i = 0 ∧ j = 1 then some 1
  else if i = 1 ∧ j = 0 then some 3
  else some 0

/-! ## Numeric-token scanning: `to_vector`

Embeds `_pn_control.py`, `to_vector` lines 125–134: the routine walks
the input with `re.finditer` on the pattern `-?\d+\.?\d*` and converts
every match with `float`.  The scan below reproduces Python's
leftmost, greedy, non-overlapping match semantics for this particular
pattern: at each position a match needs a digit, or a `-` directly
followed by a digit; it then takes the maximal digit run, one optional
`.`, and a maximal digit run.  `float` on such a token is modelled
exactly as a rational (the binary-rounding of `float` is idealised
away, which is exact for the values appearing in the claims). -/

/-- Split a maximal digit run off the front, as the greedy `\d+`/`\d*`. -/
def takeDigits : List Char → (List Char × List Char)
  | [] => ([], [])
  | c :: cs =>
    if c.isDigit then
      let p := takeDigits cs
      (c :: p.1, p.2)
    else
      ([], c :: cs)

/-- The part of a match after the optional sign: the greedy digit run,
one optional `.`, and a second greedy digit run; returns the matched
characters and the remaining input. -/
def matchBody (l : List Char) : List Char × List Char :=
  match (takeDigits l).2 with
  | '.' :: r2 =>
    ((takeDigits l).1 ++ '.' :: (takeDigits r2).1, (takeDigits r2).2)
  | r1 => ((takeDigits l).1, r1)

/-- Try to match `-?\d+\.?\d*` at the head of the input; on success
return the matched token and the remaining input. -/
def matchAt (l : List Char) : Option (List Char × List Char) :=
  match l with
  | [] => none
  | c :: cs =>
    if c = '-' then
      if (cs.head?.map Char.isDigit).getD false then
        some ('-' :: (matchBody cs).1, (matchBody cs).2)
      else none
    else if c.isDigit then
      some ((matchBody (c :: cs)).1, (matchBody (c :: cs)).2)
    else none

theorem takeDigits_rest_length (l : List Char) :
    (takeDigits l).2.length ≤ l.length := by
  induction l with
  | nil => simp [takeDigits]
  | cons c cs ih =>
    simp only [takeDigits]
    split
    · simpa using Nat.le_succ_of_le ih
    · simp

theorem takeDigits_cons_digit (c : Char) (cs : List Char)
    (hc : c.isDigit = true) :
    takeDigits (c :: cs) = (c :: (takeDigits cs).1, (takeDigits cs).2) := by
  simp [takeDigits, hc]

theorem matchBody_rest_length (c : Char) (cs : List Char)
    (hc : c.isDigit = true) :
    (matchBody (c :: cs)).2.length ≤ cs.length := by
  have hstep : (takeDigits (c :: cs)).2 = (takeDigits cs).2 := by
    rw [takeDigits_cons_digit c cs hc]
  unfold matchBody
  rw [hstep]
  split
  next r2 heq =>
    have h2 := takeDigits_rest_length r2
    have h1 := takeDigits_rest_length cs
    rw [heq] at h1
    simp only [List.length_cons] at h1
    simp only []
    omega
  next r1 heq =>
    have h1 := takeDigits_rest_length cs
    simpa using h1

theorem matchAt_rest_length (l : List Char) (tok rest : List Char)
    (h : matchAt l = some (tok, rest)) : rest.length < l.length := by
  cases l with
  | nil => simp [matchAt] at h
  | cons c cs =>
    simp only [matchAt] at h
    split at h
    · split at h
      next hd =>
        cases h
        cases cs with
        | nil => simp at hd
        | cons c2 cs2 =>
          simp at hd
          have := matchBody_rest_length c2 cs2 hd
          simp only [List.length_cons]
          omega
      next => simp at h
    · split at h
      next hd =>
        cases h
        have := matchBody_rest_length c cs hd
        simp only [List.length_cons]
        omega
      next => simp at h

/-- The scan of `re.finditer`, fuelled so that it computes by
structural recursion: at each position try a match; on success emit
the token and resume after it, otherwise advance one character.  The
length of the input is always enough fuel, since every step strictly
shrinks the remaining input. -/
def finditerAux : ℕ → List Char → List (List Char)
  | 0, _ => []
  | fuel + 1, l =>
    match matchAt l with
    | some (tok, rest) => tok :: finditerAux fuel rest
    | none =>
      match l with
      | [] => []
      | _ :: cs => finditerAux fuel cs

/-- The scan of `re.finditer` over the whole input. -/
def finditer (l : List Char) : List (List Char) :=
  finditerAux l.length l

/-- Value of a digit run, as the integer part of Python `float`. -/
def digitsToNat (l : List Char) : ℕ :=
  l.foldl (fun acc c => 10 * acc + (c.toNat - '0'.toNat)) 0

/-- Value of an unsigned matched token `\d+\.?\d*`. -/
def magToRat (t : List Char) : ℚ :=
  let ip := t.takeWhile (fun c => c ≠ '.')
  let rest := t.dropWhile (fun c => c ≠ '.')
  match rest with
  | [] => (digitsToNat ip : ℚ)
  | _ :: fp => (digitsToNat ip : ℚ) + (digitsToNat fp : ℚ) / 10 ^ fp.length

/-- Python `float` on a token matched by `-?\d+\.?\d*`. -/
def tokToRat (t : List Char) : ℚ :=
  match t with
  | '-' :: rest => -(magToRat rest)
  | _ => magToRat t

/-- `to_vector`: all pattern matches in order, each converted by
`float`, as the source's `re.finditer` loop. -/
def to_vector (s : String) : List ℚ :=
  (finditer s.data).map tokToRat

/-- Split on spaces and commas — the claim's notion of
"whitespace- or comma-separated tokens" (written from the claim's
words, for comparison with the source's scan). -/
def claimTokens (l : List Char) : List (List Char) :=
  (l.splitOnP (fun c => c = ' ' ∨ c = ',')).filter (fun t => t ≠ [])

/-- The claim's notion of a signed decimal token: an optional minus
sign, a nonempty digit run, and an optional fraction part (written
from the claim's words). -/
def isSignedDecimal (t : List Char) : Bool :=
  let u := match t with
    | '-' :: rest => rest
    | _ => t
  let p := takeDigits u
  match p with
  | (ip, []) => ¬ip.isEmpty
  | (ip, '.' :: r2) => ¬ip.isEmpty && (takeDigits r2).2.isEmpty
  | _ => false

/-- A signed decimal token in structured form: sign, nonempty integer
digit run, and optional fraction digit run. -/
structure DecTok where
  neg : Bool
  ip : List Char
  frac : Option (List Char)

/-- Well-formedness of a structured token: the integer part is a
nonempty digit run and every fraction character is a digit. -/
def DecTok.WF (t : DecTok) : Prop :=
  t.ip ≠ [] ∧ (∀ c ∈ t.ip, c.isDigit = true) ∧
    (∀ ds, t.frac = some ds → ∀ c ∈ ds, c.isDigit = true)

/-- The character spelling of a structured token. -/
def DecTok.chars (t : DecTok) : List Char :=
  (if t.neg then ['-'] else []) ++ t.ip ++
    (match t.frac with
     | none => []
     | some ds => '.' :: ds)

/-- Tokens joined by a single separator character. -/
def joinSep (sep : Char) : List DecTok → List Char
  | [] => []
  | [t] => t.chars
  | t :: ts => t.chars ++ sep :: joinSep sep ts

/-! ## Surface construction: the dimensionality guard

Embeds `_pn_control.py`, `PNSim.construct_gsf` lines 415–476.  The
external spline/Fourier fitting routines are black boxes; the embedding
records *which* of them the branch structure selects, from the raw
grid's column count `np.shape(gsf_grid)[-1]`, the simulation
dimensionality card, the dislocation type, and the `do_fourier` flag.
A column count other than 2 or 3 raises
`ValueError("GSF grid has invalid number of dimensions")` before any
fitting call. -/

/-- Which fitting strategy `construct_gsf` invokes, or how it exits
without one. -/
inductive GsfOutcome where
  /-- 2 columns: `fg.spline_fit1d`. -/
  | spline1d
  /-- 3 columns, `dimensions == 2`: `fg.spline_fit2d` + `fg.new_gsf`. -/
  | surface2d
  /-- 3 columns, `dimensions == 1`, `do_fourier`: projection followed by
  `fg.gline_fourier`. -/
  | projected1dFourier
  /-- 3 columns, `dimensions == 1`, no Fourier refit: the
  periodicity-wrapped projection. -/
  | projected1d
  /-- 3 columns but `dimensions` neither 1 nor 2: the method returns with
  `self.gsf` never assigned. -/
  | unset
  /-- 3 columns, `dimensions == 1`, `disl_type` neither `edge` nor
  `screw`: `use_axis` is referenced before assignment. -/
  | unboundLocal
  /-- the `raise ValueError` of the final `else` branch. -/
  | valueError (msg : String)
deriving DecidableEq, Repr

/-- The branch structure of `construct_gsf` on the observable inputs. -/
def construct_gsf (n_columns : ℕ) (dims : ℤ) (disl_type : String)
    (do_fourier : Bool) : GsfOutcome :=
  if n_columns = 2 then .spline1d
  else if n_columns = 3 then
    if dims = 2 then .surface2d
    else if dims = 1 then
      if disl_type = "edge" ∨ disl_type = "screw" then
        if do_fourier then .projected1dFourier else .projected1d
      else .unboundLocal
    else .unset
  else .valueError "GSF grid has invalid number of dimensions"

/-! ## Configuration resolution

Embeds `_pn_control.py`: the typed values held by the parameter tree
(`PyVal`), the coercion callables passed as each card's `type`
(`coerce`), `change_type` (lines 75–87), `change_or_map` (lines
89–109), `from_mapping` (lines 53–72), and the per-card resolution
loop of `handle_pn_control` over the non-`elast` namelists (lines
229–243).  Python `float` rounding is idealised to exact rationals;
`float()`/`int()` are modelled on the plain decimal token grammar used
by the configuration values (a strict subset of Python's acceptance,
which is sound for the theorems: they only ever assume a *successful*
parse).  The string-encoded `eval` of mapping expressions is
reimplemented — as the design notes direct — by a closed interpreter
covering the identity and constant expressions that the schema's
deferred mappings use; any other expression is modelled as an
evaluation failure. -/

/-- A Python value held in the parameter tree. -/
inductive PyVal where
  /-- a raw or `str`-typed string. -/
  | str (s : String)
  /-- a float (exact rational model). -/
  | float (q : ℚ)
  | int (n : ℤ)
  | bool (b : Bool)
  /-- a numeric vector from `to_vector`. -/
  | vec (qs : List ℚ)
  /-- the float NaN (e.g. the `np.nan` defaults). -/
  | nan
  /-- Python `None`; as a card default it marks the card
  mission-critical. -/
  | none
deriving DecidableEq, Repr

/-- `float()` on a plain decimal token: the whole string must be a
single `-?\d+\.?\d*` match. -/
def parseFloatQ (s : String) : Option ℚ :=
  match matchAt s.data with
  | some (tok, []) => some (tokToRat tok)
  | _ => none

/-- `int()` on a plain signed digit string. -/
def parseIntZ (s : String) : Option ℤ :=
  match s.data with
  | '-' :: ds =>
    if ds ≠ [] ∧ ds.all Char.isDigit then some (-(digitsToNat ds : ℤ))
    else none
  | ds =>
    if ds ≠ [] ∧ ds.all Char.isDigit then some ((digitsToNat ds : ℤ))
    else none

/-- The coercion callables installed as the cards' `type` fields. -/
inductive CardType where
  | str
  | float
  | int
  /-- the source's `to_bool`, which accepts exactly `"True"`/`"False"`. -/
  | toBool
  /-- the source's `to_vector`. -/
  | toVec
deriving DecidableEq, Repr

/-- Applying a card's type callable to a raw string; `none` models the
`ValueError` the callable raises on unconvertible input (`str` and
`to_vector` never raise). -/
def coerce (ty : CardType) (s : String) : Option PyVal :=
  match ty with
  | .str => some (.str s)
  | .float => (parseFloatQ s).map PyVal.float
  | .int => (parseIntZ s).map PyVal.int
  | .toBool =>
    if s = "True" then some (.bool true)
    else if s = "False" then some (.bool false)
    else none
  | .toVec => some (.vec (to_vector s))

/-- Substring search over char lists, Python's `pat in s`. -/
def hasSubAux (pat : List Char) : List Char → Bool
  | [] => pat.isEmpty
  | c :: cs => pat.isPrefixOf (c :: cs) || hasSubAux pat cs

/-- Python's `pat in s` on strings. -/
def containsSub (s pat : String) : Bool :=
  hasSubAux pat.data s.data

/-- The float64 value of `np.pi`, exactly. -/
def ratPi : ℚ := 884279719003555 / 281474976710656

/-- The float64 value of `np.e`, exactly. -/
def ratE : ℚ := 6121026514868073 / 2251799813685248

/-- `eval` on the symbolic-constant strings that `change_type`
recognises; composite expressions are modelled as evaluation failures
(`eval` raising), per the closed-interpreter design note. -/
def npEval (s : String) : Except String PyVal :=
  if s = "np.pi" then .ok (.float ratPi)
  else if s = "np.e" then .ok (.float ratE)
  else .error "eval"

/-- `change_type` (lines 75–87): try the coercion; on `ValueError`,
look for a `np.pi`/`np.e` symbolic literal and `eval` it — and when
neither symbol occurs, the handler body is empty, so the function
returns with the card still holding its unconverted string. -/
def change_type (ty : CardType) (s : String) : Except String PyVal :=
  match coerce ty s with
  | some v => .ok v
  | Option.none =>
    if containsSub s "np.pi" || containsSub s "np.e" then npEval s
    else .ok (.str s)

/-- Association-list lookup, Python `d[k]` returning `None` on a
missing key (callers distinguish the `KeyError` case themselves). -/
def assocGet {α : Type} : List (String × α) → String → Option α
  | [], _ => none
  | (k', v) :: rest, k => if k' = k then some v else assocGet rest k

/-- Association-list store, Python `d[k] = v`. -/
def assocSet {α : Type} : List (String × α) → String → α → List (String × α)
  | [], k, v => [(k, v)]
  | (k', v') :: rest, k, v =>
    if k' = k then (k, v) :: rest else (k', v') :: assocSet rest k v

/-- The parameter tree: namelist name → card name → value. -/
abbrev Tree := List (String × List (String × PyVal))

/-- `param_dict[nl][card]`, `none` when either key is missing. -/
def treeGet (t : Tree) (nl card : String) : Option PyVal :=
  match assocGet t nl with
  | some cards => assocGet cards card
  | Option.none => Option.none

/-- `param_dict[nl][card] = v` (adding the namelist if absent, which
the resolver's pre-pass guarantees never happens). -/
def treeSet (t : Tree) (nl card : String) (v : PyVal) : Tree :=
  match assocGet t nl with
  | some cards => assocSet t nl (assocSet cards card v)
  | Option.none => assocSet t nl [(card, v)]

/-- Split a char list at its last colon (the greedy `(?P<val>.+):` of
the mapping regex). -/
def splitAtLastColon (l : List Char) : Option (List Char × List Char) :=
  let r := l.reverse
  let after := r.takeWhile (fun c => c ≠ ':')
  match r.dropWhile (fun c => c ≠ ':') with
  | [] => none
  | _ :: before => some (before.reverse, after.reverse)

/-- The mapping-expression regex
`\s*map\s+(?P<namelist>[^\s]+)\s*>\s*(?P<val>.+):\s*(?P<var>\w+)\s*->\s*(?P<expr>.*)`
on a raw card string: returns `(namelist, val, var, expr)` on a match,
`none` otherwise (the caller then hits the `AttributeError` of
`found_map.group` on `None`). -/
def parseMapExpr (s : String) : Option (String × String × String × String) :=
  match s.data.dropWhile (fun c => c = ' ') with
  | 'm' :: 'a' :: 'p' :: ' ' :: r0 =>
    let r1 := r0.dropWhile (fun c => c = ' ')
    let nl := r1.takeWhile (fun c => c ≠ ' ' ∧ c ≠ '>')
    if nl.isEmpty then none
    else
      match (r1.drop nl.length).dropWhile (fun c => c = ' ') with
      | '>' :: r3 =>
        match splitAtLastColon (r3.dropWhile (fun c => c = ' ')) with
        | some (valPart, afterColon) =>
          if valPart.isEmpty then none
          else
            let r5 := afterColon.dropWhile (fun c => c = ' ')
            let varName := r5.takeWhile (fun c => c.isAlphanum ∨ c = '_')
            if varName.isEmpty then none
            else
              match (r5.drop varName.length).dropWhile (fun c => c = ' ') with
              | '-' :: '>' :: r7 =>
                some (⟨nl⟩, ⟨valPart⟩, ⟨varName⟩,
                  ⟨r7.dropWhile (fun c => c = ' ')⟩)
              | _ => none
        | Option.none => none
      | _ => none
  | _ => none

/-- The closed interpreter for `eval('(lambda VAR: EXPR)(value)')`:
the identity expression returns the referenced numeric value, a
constant decimal literal returns its value, anything else is modelled
as an evaluation failure. -/
def evalMapExpr (varName expr : String) (arg : PyVal) : Option PyVal :=
  if expr = varName then
    match arg with
    | .float q => some (.float q)
    | .int n => some (.int n)
    | _ => none
  else
    match parseFloatQ expr with
    | some q => some (.float q)
    | Option.none => none

/-- Python exceptions distinguished by the resolution loop. -/
inductive PyErr where
  /-- a raised `ValueError`, with its message. -/
  | valueError (msg : String)
  | keyError (k : String)
  | attrError
  | typeError
  /-- an error raised inside `eval`. -/
  | evalError
deriving DecidableEq, Repr

/-- `from_mapping` (lines 53–72): parse the mapping string, read the
referenced card's value, evaluate the lambda on it, and store the
result in the target card. -/
def from_mapping (t : Tree) (nl card : String) : Except PyErr Tree :=
  match treeGet t nl card with
  | Option.none => .error (.keyError card)
  | some (.str s) =>
    match parseMapExpr s with
    | Option.none => .error .attrError
    | some (nl2, card2, varName, expr) =>
      match treeGet t nl2 card2 with
      | Option.none => .error (.keyError card2)
      | some arg =>
        match evalMapExpr varName expr arg with
        | some v => .ok (treeSet t nl card v)
        | Option.none => .error .evalError
  | some _ => .error .typeError

/-- `change_or_map` (lines 89–109): a missing card raises `ValueError`
(the `KeyError` is re-raised as such); a value containing `map` goes to
`from_mapping`; otherwise `change_type` converts it in place. -/
def change_or_map (t : Tree) (nl card : String) (ty : CardType) :
    Except PyErr Tree :=
  match treeGet t nl card with
  | Option.none => .error (.valueError "")
  | some (.str s) =>
    if containsSub s "map" then from_mapping t nl card
    else
      match change_type ty s with
      | .ok v => .ok (treeSet t nl card v)
      | .error _ => .error .evalError
  | some _ => .error .typeError

/-- A schema card: its name, its default (Python `None` — `PyVal.none`
— marking it mission-critical), and its type callable. -/
structure Card where
  name : String
  default : PyVal
  ty : CardType

/-- One iteration of the card loop of `handle_pn_control` (lines
229–243): attempt `change_or_map`; on `ValueError` install the default,
aborting with the mission-critical message when there is none, and
evaluating the default as a mapping when it is a `map` string. -/
def resolve_card (t : Tree) (nl : String) (c : Card) : Except PyErr Tree :=
  match change_or_map t nl c.name c.ty with
  | .ok t' => .ok t'
  | .error (.valueError _) =>
    if c.default = .none then
      .error (.valueError
        ("No value supplied for mission-critical variable "
          ++ c.name ++ "."))
    else
      match c.default with
      | .str s =>
        if containsSub s "map" then
          from_mapping (treeSet t nl c.name (.str s)) nl c.name
        else .ok (treeSet t nl c.name (.str s))
      | d => .ok (treeSet t nl c.name d)
  | .error e => .error e

/-- The card loop over one namelist's schema. -/
def handle_cards (nl : String) (cards : List Card) (t : Tree) :
    Except PyErr Tree :=
  cards.foldlM (fun acc c => resolve_card acc nl c) t

/-- The `&struc` schema of `handle_pn_control`: `a` is
mission-critical and `b`, `burgers`, `spacing` default to the identity
mapping on `a`. -/
def struc_cards : List Card :=
  [⟨"a", .none, .float⟩,
   ⟨"b", .str "map struc > a: x -> x", .float⟩,
   ⟨"burgers", .str "map struc > a: x -> x", .float⟩,
   ⟨"spacing", .str "map struc > a: x -> x", .float⟩]

end PyDis

/-! ## Theorems -/

namespace PyDis

/-- C3: the elasticity dispatch selects exactly one mode by the fixed
priority order — explicit `k_parallel` coefficients first, then the
`cij` tensor, then (when `shear` is supplied) Poisson's ratio before
the bulk modulus — and fails with the fatal "No elastic properties"
error when no mode's required inputs are all present.  In particular,
when both `k_parallel` and `cij` are populated the selected mode is
`specific`, not `aniso`. -/
theorem elastDispatch_priority (kp cij sh po bu : Option ℚ) :
    (kp.isSome → elastDispatch kp cij sh po bu = .ok .specific) ∧
    (kp = none → cij.isSome → elastDispatch kp cij sh po bu = .ok .aniso) ∧
    (kp = none → cij = none → sh.isSome → po.isSome →
      elastDispatch kp cij sh po bu = .ok .iso_nu) ∧
    (kp = none → cij = none → sh.isSome → po = none → bu.isSome →
      elastDispatch kp cij sh po bu = .ok .iso_bulk) ∧
    (kp = none → cij = none → sh.isSome → po = none → bu = none →
      elastDispatch kp cij sh po bu =
        .error "No elastic properties have been provided.") ∧
    (kp = none → cij = none → sh = none →
      elastDispatch kp cij sh po bu =
        .error "No elastic properties have been provided.") := by
  unfold elastDispatch
  refine ⟨?_, ?_, ?_, ?_, ?_, ?_⟩ <;>
    cases kp <;> cases cij <;> cases sh <;> cases po <;> cases bu <;> simp

/-- Witness for C3 at concrete inputs: with both `k_parallel` and `cij`
populated the mode is `specific`, and with nothing populated the
dispatch errors. -/
theorem elastDispatch_priority_witness :
    elastDispatch (some 1) (some 2) none none none = .ok .specific ∧
    elastDispatch none none none none none =
      .error "No elastic properties have been provided." := by
  refine ⟨?_, ?_⟩
  · exact (elastDispatch_priority (some 1) (some 2) none none none).1 rfl
  · exact (elastDispatch_priority none none none none none).2.2.2.2.2 rfl rfl rfl

/-- C10: for any program other than `gulp` (case-insensitively), as soon
as at least one energy line matches, `get_gsf_energy` terminates with an
unbound-local error instead of returning a pair; and a normal return
happens only when no energy matched (yielding NaN energy and `None`
units) or when the program is `gulp`. -/
theorem get_gsf_energy_unbound (prog : String) (matched : List (ℚ × String))
    (flagged : Bool) (gnormFound : Option ℚ) :
    (pyLower prog ≠ "gulp" → matched ≠ [] →
      get_gsf_energy prog matched flagged gnormFound = .unboundLocal) ∧
    (∀ E u, get_gsf_energy prog matched flagged gnormFound = .ret E u →
      matched = [] ∨ pyLower prog = "gulp") ∧
    (matched = [] →
      get_gsf_energy prog matched flagged gnormFound = .ret none none) := by
  refine ⟨?_, ?_, ?_⟩
  · intro hp hm
    unfold get_gsf_energy
    simp [List.isEmpty_iff, hm, hp]
  · intro E u hret
    by_cases hm : matched = []
    · exact Or.inl hm
    · right
      by_contra hp
      unfold get_gsf_energy at hret
      simp [List.isEmpty_iff, hm, hp] at hret
  · intro hm
    unfold get_gsf_energy
    simp [hm]

/-- Witness for C10: under the `castep` program with one matched energy
line, the extraction hits the unbound-local failure; with no matches it
returns NaN/None. -/
theorem get_gsf_energy_unbound_witness :
    get_gsf_energy "castep" [((5 : ℚ), "eV")] false none = .unboundLocal ∧
    get_gsf_energy "castep" [] false none = .ret none none := by
  refine ⟨?_, ?_⟩
  · exact (get_gsf_energy_unbound "castep" [((5 : ℚ), "eV")] false none).1
      (by decide) (by simp)
  · exact (get_gsf_energy_unbound "castep" [] false none).2.2 rfl

/-! ### 1D repair lemmas -/

theorem getD_set_ne {α : Type} (l : List α) (i j : ℕ) (x d : α) (h : i ≠ j) :
    (l.set i x).getD j d = l.getD j d := by
  simp [List.getD_eq_getElem?_getD, List.getElem?_set_ne h]

theorem repair1dStep_valid (es : List (Option ℚ)) (i : ℕ)
    (h : (es.getD i none).isSome) : repair1dStep es i = .ok es := by
  unfold repair1dStep
  rw [if_pos h]

theorem repair1dStep_error_msg (es : List (Option ℚ)) (i : ℕ) (e : String)
    (h : repair1dStep es i = .error e) : e = "Too many NaN values." := by
  unfold repair1dStep at h
  split at h
  · exact absurd h (by simp)
  · split at h
    · cases h; rfl
    · exact absurd h (by simp)

theorem repair1d_fold_valid (L : List ℕ) (es : List (Option ℚ))
    (h : ∀ j ∈ L, (es.getD j none).isSome) :
    L.foldlM repair1dStep es = Except.ok es := by
  induction L with
  | nil => rfl
  | cons j L ih =>
    rw [List.foldlM_cons, repair1dStep_valid es j (h j (by simp))]
    exact ih fun k hk => h k (by simp [hk])

theorem repair1d_fold_error_msg (L : List ℕ) :
    ∀ (es : List (Option ℚ)) (e : String),
      L.foldlM repair1dStep es = .error e → e = "Too many NaN values." := by
  induction L with
  | nil =>
    intro es e h
    simp only [List.foldlM_nil] at h
    exact absurd h (by simp [pure, Except.pure])
  | cons j L ih =>
    intro es e h
    rw [List.foldlM_cons] at h
    cases hs : repair1dStep es j with
    | error e' =>
      rw [hs] at h
      simp only [Bind.bind, Except.bind] at h
      injection h with he
      rw [← he]
      exact repair1dStep_error_msg es j e' hs
    | ok es1 =>
      rw [hs] at h
      simp only [Bind.bind, Except.bind] at h
      exact ih es1 e h

theorem repair1dStep_frame (es es' : List (Option ℚ)) (i : ℕ)
    (h : repair1dStep es i = .ok es') :
    es'.length = es.length ∧
      ∀ j, j ≠ i → es'.getD j none = es.getD j none := by
  unfold repair1dStep at h
  split at h
  · cases h; exact ⟨rfl, fun _ _ => rfl⟩
  · split at h
    · exact absurd h (by simp)
    · cases h
      exact ⟨List.length_set .., fun j hj => getD_set_ne _ _ _ _ _ (fun he => hj he.symm)⟩

theorem repair1d_fold_frame (L : List ℕ) :
    ∀ (es es' : List (Option ℚ)),
      L.foldlM repair1dStep es = .ok es' →
      es'.length = es.length ∧
        ∀ p, p ∉ L → es'.getD p none = es.getD p none := by
  induction L with
  | nil =>
    intro es es' h
    simp only [List.foldlM_nil] at h
    cases h
    exact ⟨rfl, fun _ _ => rfl⟩
  | cons j L ih =>
    intro es es' h
    rw [List.foldlM_cons] at h
    cases hs : repair1dStep es j with
    | error e' =>
      rw [hs] at h
      exact absurd h (by simp [Bind.bind, Except.bind])
    | ok es1 =>
      rw [hs] at h
      simp only [Bind.bind, Except.bind] at h
      obtain ⟨hl1, hf1⟩ := repair1dStep_frame es es1 j hs
      obtain ⟨hl2, hf2⟩ := ih es1 es' h
      refine ⟨hl2.trans hl1, fun p hp => ?_⟩
      have hpj : p ≠ j := fun he => hp (by simp [he])
      have hpL : p ∉ L := fun hm => hp (by simp [hm])
      rw [hf2 p hpL, hf1 p hpj]

theorem optAdd_none_right (x : Option ℚ) : optAdd x none = none := by
  cases x <;> rfl

theorem optAdd_none_left (x : Option ℚ) : optAdd none x = none := by
  cases x <;> rfl

theorem pyMod_coe_lt (a n : ℕ) (h : a < n) : pyMod (a : ℤ) n = a := by
  unfold pyMod
  rw [Int.emod_eq_of_lt (Int.natCast_nonneg a) (by exact_mod_cast h)]
  simp

theorem pyMod_self (n : ℕ) : pyMod (n : ℤ) n = 0 := by
  unfold pyMod
  rw [Int.emod_self]
  rfl

theorem pyMod_neg_one (n : ℕ) (h : 0 < n) : pyMod (-1) n = n - 1 := by
  unfold pyMod
  have h1 : ((-1 : ℤ) + (n : ℤ) * 1) % (n : ℤ) = (-1 : ℤ) % (n : ℤ) :=
    Int.add_mul_emod_self_left (-1) (n : ℤ) 1
  have h2 : ((-1 : ℤ) + (n : ℤ) * 1) = (n : ℤ) - 1 := by ring
  have h3 : ((n : ℤ) - 1) % (n : ℤ) = (n : ℤ) - 1 :=
    Int.emod_eq_of_lt (by omega) (by omega)
  have h4 : (-1 : ℤ) % (n : ℤ) = (n : ℤ) - 1 := by rw [← h1, h2, h3]
  rw [h4]
  omega

theorem pyMod_add_one_lt (i n : ℕ) (h : i + 1 < n) :
    pyMod ((i : ℤ) + 1) n = i + 1 := by
  have h1 : ((i : ℤ) + 1) = ((i + 1 : ℕ) : ℤ) := by push_cast; ring
  rw [h1, pyMod_coe_lt _ _ h]

theorem pyMod_add_one_self (i : ℕ) : pyMod ((i : ℤ) + 1) (i + 1) = 0 := by
  have h1 : ((i : ℤ) + 1) = ((i + 1 : ℕ) : ℤ) := by push_cast; ring
  rw [h1, pyMod_self]

theorem repair1d_fold_valid_append (L L' : List ℕ) (es : List (Option ℚ))
    (h : ∀ j ∈ L, (es.getD j none).isSome) :
    (L ++ L').foldlM repair1dStep es = L'.foldlM repair1dStep es := by
  induction L with
  | nil => rfl
  | cons j L ih =>
    rw [List.cons_append, List.foldlM_cons, repair1dStep_valid es j (h j (by simp))]
    simp only [Bind.bind, Except.bind]
    exact ih fun k hk => h k (by simp [hk])

/-- C2, amended.  First conjunct: when the grid has exactly one NaN cell
at index `i` and both its toroidal neighbours at `(i-1) % (X+1)` and
`(i+1) % (X+1)` are valid, the repair succeeds and replaces the cell
with the neighbours' average (in particular `2.0` and `4.0` yield
`3.0`).  Second conjunct: when a NaN cell's successor neighbour is
itself NaN in the input grid, the repair aborts with the data-quality
error `"Too many NaN values."` — the IEEE average of a number with NaN
is NaN, so failure needs only one invalid neighbour, not both. -/
theorem gsf_repair1d_amended :
    (∀ (es : List (Option ℚ)) (i : ℕ) (a b : ℚ),
      i < es.length →
      es.getD i none = none →
      (∀ j, j < es.length → j ≠ i → (es.getD j none).isSome) →
      es.getD (pyMod ((i : ℤ) - 1) es.length) none = some a →
      es.getD (pyMod ((i : ℤ) + 1) es.length) none = some b →
      repair1d es = .ok (es.set i (some ((a + b) / 2)))) ∧
    (∀ (es : List (Option ℚ)) (i : ℕ),
      i < es.length →
      es.getD i none = none →
      es.getD (pyMod ((i : ℤ) + 1) es.length) none = none →
      repair1d es = .error "Too many NaN values.") := by
  constructor
  · intro es i a b hi h0 hval hleft hright
    unfold repair1d
    have hdecomp : List.range es.length
        = List.range i ++ ([i] ++
            (List.range (es.length - (i + 1))).map (fun x => (i + 1) + x)) := by
      rw [← List.append_assoc, ← List.range_succ, ← List.range_add]
      congr 1
      omega
    rw [hdecomp,
      repair1d_fold_valid_append _ _ es
        (fun j hj => hval j (by simp at hj; omega) (by simp at hj; omega)),
      List.singleton_append, List.foldlM_cons]
    have hstep : repair1dStep es i = .ok (es.set i (some ((a + b) / 2))) := by
      unfold repair1dStep
      rw [if_neg (by rw [h0]; simp), hleft, hright]
      rfl
    rw [hstep]
    simp only [Bind.bind, Except.bind]
    refine repair1d_fold_valid _ _ fun j hj => ?_
    simp only [List.mem_map, List.mem_range] at hj
    obtain ⟨x, hx, rfl⟩ := hj
    rw [getD_set_ne _ _ _ _ _ (by omega)]
    exact hval _ (by omega) (by omega)
  · intro es i hi h0 hnbr
    by_cases hlt : i + 1 < es.length
    · -- the NaN successor is at index i+1 itself; the run dies at (or
      -- before) cell i
      rw [pyMod_add_one_lt i es.length hlt] at hnbr
      unfold repair1d
      have hdecomp : List.range es.length
          = List.range i ++ ([i] ++
              (List.range (es.length - (i + 1))).map (fun x => (i + 1) + x)) := by
        rw [← List.append_assoc, ← List.range_succ, ← List.range_add]
        congr 1
        omega
      rw [hdecomp, List.foldlM_append]
      cases hpre : (List.range i).foldlM repair1dStep es with
      | error e =>
        have he := repair1d_fold_error_msg _ es e hpre
        subst he
        rfl
      | ok es1 =>
        obtain ⟨hlen, hframe⟩ := repair1d_fold_frame _ es es1 hpre
        simp only [Bind.bind, Except.bind, List.singleton_append, List.foldlM_cons]
        have h0' : es1.getD i none = none := by
          rw [hframe i (by simp), h0]
        have hn' : es1.getD (i + 1) none = none := by
          rw [hframe (i + 1) (by simp), hnbr]
        have hstep : repair1dStep es1 i = .error "Too many NaN values." := by
          unfold repair1dStep
          rw [if_neg (by rw [h0']; simp), hlen, pyMod_add_one_lt i es.length hlt,
            hn', optAdd_none_right]
          rfl
        rw [hstep]
    · -- wraparound: i is the last cell, so cell 0 is NaN and its own
      -- predecessor neighbour is cell i, also NaN: the very first loop
      -- iteration fails
      have hieq : i + 1 = es.length := by omega
      rw [← hieq, pyMod_add_one_self i] at hnbr
      unfold repair1d
      obtain ⟨m, hm⟩ : ∃ m, es.length = m + 1 := ⟨i, hieq.symm⟩
      rw [hm, List.range_succ_eq_map, List.foldlM_cons]
      have hstep : repair1dStep es 0 = .error "Too many NaN values." := by
        unfold repair1dStep
        rw [if_neg (by rw [hnbr]; simp)]
        have hz : ((0 : ℕ) : ℤ) - 1 = -1 := by norm_num
        rw [hz, pyMod_neg_one es.length (by omega)]
        have hil : es.length - 1 = i := by omega
        rw [hil, h0, optAdd_none_left]
        rfl
      rw [hstep]
      rfl

/-- C2, counterexample to the claim as stated: in the grid
`[NaN, NaN, 4.0]` no invalid cell has *both* toroidal neighbours
invalid (cell 0 has the valid neighbour at index 2, and so does
cell 1), so by the claim the repair should succeed; the code
nevertheless fails with `"Too many NaN values."`, because averaging the
single valid neighbour with a NaN neighbour yields NaN. -/
theorem gsf_repair1d_counterexample :
    repair1d [none, none, some (4 : ℚ)] = .error "Too many NaN values." ∧
    (([none, none, some (4 : ℚ)].getD (pyMod ((0 : ℤ) - 1) 3) none).isSome
      = true) ∧
    (([none, none, some (4 : ℚ)].getD (pyMod ((1 : ℤ) + 1) 3) none).isSome
      = true) := by
  refine ⟨by rfl, by rfl, by rfl⟩

/-- Witness for C2's amended theorem: the flanked grid
`[2.0, NaN, 4.0]` repairs its NaN cell to `3.0`, and the grid
`[NaN, 5.0, NaN]` (whose last NaN cell wraps onto the NaN cell 0)
aborts with the data-quality error. -/
theorem gsf_repair1d_amended_witness :
    repair1d [some 2, none, some (4 : ℚ)]
      = .ok [some 2, some 3, some 4] ∧
    repair1d [none, some (5 : ℚ), none] = .error "Too many NaN values." := by
  constructor
  · have h := gsf_repair1d_amended.1 [some 2, none, some (4 : ℚ)] 1 2 4
      (by simp) (by rfl) (by decide) (by rfl) (by rfl)
    rw [show ((2 : ℚ) + 4) / 2 = 3 by norm_num] at h
    exact h
  · exact gsf_repair1d_amended.2 [none, some (5 : ℚ), none] 2
      (by simp) (by rfl) (by rfl)

/-! ### 2D repair lemmas -/

theorem upd2_self (g : ℕ → ℕ → Option ℚ) (i j : ℕ) (v : Option ℚ) :
    upd2 g i j v i j = v := by
  simp [upd2]

theorem repair2dStep_g_ne (X Y : ℕ) (ref : Option ℚ) (st : Grid2State)
    (p : ℕ × ℕ) (a b : ℕ) (h : (a, b) ≠ p) :
    (repair2dStep X Y ref st p).g a b = st.g a b := by
  obtain ⟨p1, p2⟩ := p
  have h' : ¬(a = p1 ∧ b = p2) := by
    rintro ⟨rfl, rfl⟩
    exact h rfl
  unfold repair2dStep
  split
  · split <;> simp [upd2, h']
  · rfl

theorem repair2dStep_valid (X Y : ℕ) (ref : Option ℚ) (st : Grid2State)
    (p : ℕ × ℕ) (h : isBad ref (st.g p.1 p.2) = false) :
    repair2dStep X Y ref st p = st := by
  unfold repair2dStep
  rw [h]
  rfl

theorem repair2d_fold_persist (X Y : ℕ) (ref : Option ℚ) (L : List (ℕ × ℕ)) :
    ∀ (st : Grid2State) (a b : ℕ), isBad ref (st.g a b) = false →
      ((L.foldl (repair2dStep X Y ref) st).g a b = st.g a b) := by
  induction L with
  | nil => intro st a b _; rfl
  | cons p L ih =>
    intro st a b h
    rw [List.foldl_cons]
    by_cases hp : (a, b) = p
    · subst hp
      rw [repair2dStep_valid X Y ref st (a, b) h]
      exact ih st a b h
    · have hg := repair2dStep_g_ne X Y ref st p a b hp
      rw [ih (repair2dStep X Y ref st p) a b (by rw [hg]; exact h), hg]

theorem repair2d_fold_untouched (X Y : ℕ) (ref : Option ℚ)
    (L : List (ℕ × ℕ)) :
    ∀ (st : Grid2State) (a b : ℕ), (a, b) ∉ L →
      ((L.foldl (repair2dStep X Y ref) st).g a b = st.g a b) := by
  induction L with
  | nil => intro st a b _; rfl
  | cons p L ih =>
    intro st a b h
    rw [List.foldl_cons,
      ih _ a b (fun hm => h (by simp [hm])),
      repair2dStep_g_ne X Y ref st p a b (fun he => h (by simp [he]))]

theorem repair2dStep_bad (X Y : ℕ) (ref : Option ℚ) (st : Grid2State)
    (i j : ℕ) (hbad : isBad ref (st.g i j) = true) (vs : List ℚ)
    (hvs : neighborVals X Y ref st.g i j = vs) (hne : vs.length ≠ 0) :
    repair2dStep X Y ref st (i, j) =
      { g := upd2 st.g i j (some (vs.sum / vs.length)),
        warnings := st.warnings } := by
  simp [repair2dStep, hbad, hvs, hne]

/-- General evaluation of the 2D sweep at a single bad cell whose four
signature neighbours are all valid in the original grid: the cell is
repaired in place to the mean of the four (multiplicity-counted)
neighbour values, and no other write can reach it. -/
theorem repair2d_single_bad (X Y : ℕ) (g : ℕ → ℕ → Option ℚ) (i j : ℕ)
    (a b c d : ℚ)
    (hX : 0 < X) (hY : 0 < Y) (hi : i ≤ X) (hj : j ≤ Y)
    (hbad : isBad (g 0 0) (g i j) = true)
    (h1 : g (pyMod ((i : ℤ) + 1) X) j = some a)
    (h1v : isBad (g 0 0) (some a) = false)
    (h2 : g (pyMod ((i : ℤ) - 1) X) j = some b)
    (h2v : isBad (g 0 0) (some b) = false)
    (h3 : g i (pyMod ((j : ℤ) + 1) Y) = some c)
    (h3v : isBad (g 0 0) (some c) = false)
    (h4 : g i (pyMod ((j : ℤ) - 1) Y) = some d)
    (h4v : isBad (g 0 0) (some d) = false) :
    (repair2d X Y g).g i j = some ((a + b + c + d) / 4) := by
  have hmem : (i, j) ∈ rowMajor X Y := by
    exact List.mem_product.mpr
      ⟨List.mem_range.mpr (by omega), List.mem_range.mpr (by omega)⟩
  have hnodup : (rowMajor X Y).Nodup :=
    List.Nodup.product (List.nodup_range _) (List.nodup_range _)
  obtain ⟨L1, L2, hsplit⟩ := List.append_of_mem hmem
  rw [hsplit] at hnodup
  rw [List.nodup_append] at hnodup
  have hL2 : (i, j) ∉ L2 := (List.nodup_cons.mp hnodup.2.1).1
  have hL1 : (i, j) ∉ L1 := fun hm => hnodup.2.2 hm (List.mem_cons_self _ _)
  unfold repair2d
  rw [hsplit, List.foldl_append, List.foldl_cons]
  rw [repair2d_fold_untouched X Y (g 0 0) L2 _ i j hL2]
  have hst0 : ({ g := g, warnings := 0 } : Grid2State).g = g := rfl
  have hst1ij :
      ((L1.foldl (repair2dStep X Y (g 0 0)) { g := g, warnings := 0 }).g i j)
        = g i j :=
    repair2d_fold_untouched X Y (g 0 0) L1 _ i j hL1
  have hp1 := repair2d_fold_persist X Y (g 0 0) L1 { g := g, warnings := 0 }
    (pyMod ((i : ℤ) + 1) X) j (by rw [hst0, h1]; exact h1v)
  have hp2 := repair2d_fold_persist X Y (g 0 0) L1 { g := g, warnings := 0 }
    (pyMod ((i : ℤ) - 1) X) j (by rw [hst0, h2]; exact h2v)
  have hp3 := repair2d_fold_persist X Y (g 0 0) L1 { g := g, warnings := 0 }
    i (pyMod ((j : ℤ) + 1) Y) (by rw [hst0, h3]; exact h3v)
  have hp4 := repair2d_fold_persist X Y (g 0 0) L1 { g := g, warnings := 0 }
    i (pyMod ((j : ℤ) - 1) Y) (by rw [hst0, h4]; exact h4v)
  rw [hst0] at hp1 hp2 hp3 hp4
  rw [h1] at hp1
  rw [h2] at hp2
  rw [h3] at hp3
  rw [h4] at hp4
  have hva : validVal (g 0 0) (some a) = some a := by simp [validVal, h1v]
  have hvb : validVal (g 0 0) (some b) = some b := by simp [validVal, h2v]
  have hvc : validVal (g 0 0) (some c) = some c := by simp [validVal, h3v]
  have hvd : validVal (g 0 0) (some d) = some d := by simp [validVal, h4v]
  have hvals : neighborVals X Y (g 0 0)
      ((L1.foldl (repair2dStep X Y (g 0 0)) { g := g, warnings := 0 }).g) i j
      = [a, b, c, d] := by
    simp [neighborVals, neighbors2d, hp1, hp2, hp3, hp4, hva, hvb, hvc, hvd]
  rw [repair2dStep_bad X Y (g 0 0) _ i j (by rw [hst1ij]; exact hbad)
    [a, b, c, d] hvals (by simp)]
  simp only [upd2_self]
  norm_num
  ring

/-- C1, amended.  In the 2D sweep the neighbour rows wrap modulo
`x_max` and the neighbour columns modulo `y_max` — not modulo the row
count `x_max + 1` and column count `y_max + 1` as claimed.  Amended
statement: a bad (NaN-or-suspect) cell whose four signature neighbours
at `((i±1) % x_max, j)`, `(i, (j±1) % y_max)` are all valid in the
original grid is repaired to the mean of those four neighbour values
(positions counted with multiplicity). -/
theorem gsf_repair2d_amended (X Y : ℕ) (g : ℕ → ℕ → Option ℚ) (i j : ℕ)
    (a b c d : ℚ)
    (hX : 0 < X) (hY : 0 < Y) (hi : i ≤ X) (hj : j ≤ Y)
    (hbad : isBad (g 0 0) (g i j) = true)
    (h1 : g (pyMod ((i : ℤ) + 1) X) j = some a)
    (h1v : isBad (g 0 0) (some a) = false)
    (h2 : g (pyMod ((i : ℤ) - 1) X) j = some b)
    (h2v : isBad (g 0 0) (some b) = false)
    (h3 : g i (pyMod ((j : ℤ) + 1) Y) = some c)
    (h3v : isBad (g 0 0) (some c) = false)
    (h4 : g i (pyMod ((j : ℤ) - 1) Y) = some d)
    (h4v : isBad (g 0 0) (some d) = false) :
    (repair2d X Y g).g i j = some ((a + b + c + d) / 4) :=
  repair2d_single_bad X Y g i j a b c d hX hY hi hj hbad
    h1 h1v h2 h2v h3 h3v h4 h4v

/-- C1, counterexample to the claim as stated.  In the 3×3 grid
`cexGrid` (reference energy `0.0` at the origin) the single bad cell
`(0, 1)` is repaired to `2.0` — the mean over the source's signatures
modulo `x_max = 2`, which hit `(1, 1)` twice and `(0, 0)` twice — while
the claim's average over the toroidal neighbours modulo the row/column
count `3` (cells `(1, 1)`, `(2, 1)`, `(0, 2)`, `(0, 0)`) is `3.0`. -/
theorem gsf_repair2d_counterexample :
    (repair2d 2 2 cexGrid).g 0 1 = some 2 ∧
    claimRepairValue 2 2 cexGrid 0 1 = some 3 ∧
    (repair2d 2 2 cexGrid).g 0 1 ≠ claimRepairValue 2 2 cexGrid 0 1 := by
  have hcode : (repair2d 2 2 cexGrid).g 0 1 = some 2 := by
    have h := repair2d_single_bad 2 2 cexGrid 0 1 4 4 0 0
      (by norm_num) (by norm_num) (by norm_num) (by norm_num)
      (by rfl) (by rfl) (by norm_num [isBad, cexGrid]) (by rfl)
      (by norm_num [isBad, cexGrid]) (by rfl) (by norm_num [isBad, cexGrid])
      (by rfl) (by norm_num [isBad, cexGrid])
    rw [show ((4 : ℚ) + 4 + 0 + 0) / 4 = 2 by norm_num] at h
    exact h
  have hcl : claimNeighbors2d 2 2 0 1 = [(1, 1), (2, 1), (0, 2), (0, 0)] := by
    rfl
  have hvv4 : validVal (some 0) (some (4 : ℚ)) = some 4 := by
    norm_num [validVal, isBad]
  have hvv8 : validVal (some 0) (some (8 : ℚ)) = some 8 := by
    norm_num [validVal, isBad]
  have hvv0 : validVal (some 0) (some (0 : ℚ)) = some 0 := by
    norm_num [validVal, isBad]
  have hfm : List.filterMap (validVal (some 0))
      [some (4 : ℚ), some 8, some 0, some 0] = [4, 8, 0, 0] := by
    simp [List.filterMap_cons, hvv4, hvv8, hvv0]
  have hclaim : claimRepairValue 2 2 cexGrid 0 1 = some 3 := by
    simp only [claimRepairValue, hcl, List.map_cons, List.map_nil]
    norm_num [cexGrid]
    rw [hfm]
    norm_num [List.sum_cons, List.sum_nil]
    intro hx _
    rw [hvv4] at hx
    exact absurd hx (by simp)
  refine ⟨hcode, hclaim, ?_⟩
  rw [hcode, hclaim]
  norm_num

/-- Witness for C1's amended theorem: in the 3×3 grid `wGrid` the NaN
cell `(1, 1)` is repaired to the mean `2.0` of its signature-neighbour
values `1, 1, 3, 3`. -/
theorem gsf_repair2d_amended_witness :
    (repair2d 2 2 wGrid).g 1 1 = some 2 := by
  have h := gsf_repair2d_amended 2 2 wGrid 1 1 1 1 3 3
    (by norm_num) (by norm_num) (by norm_num) (by norm_num)
    (by rfl) (by rfl) (by norm_num [isBad, wGrid]) (by rfl)
    (by norm_num [isBad, wGrid]) (by rfl) (by norm_num [isBad, wGrid])
    (by rfl) (by norm_num [isBad, wGrid])
  rw [show ((1 : ℚ) + 1 + 3 + 3) / 4 = 2 by norm_num] at h
  exact h

/-- C6: a bad cell with zero valid signature neighbours does not abort
the sweep (the `raise` is commented out in the source): the step
assigns the out-of-band sentinel `-10000`, increments the warning
count, and returns a state on which the fold continues. -/
theorem gsf_repair2d_sentinel (X Y : ℕ) (ref : Option ℚ) (st : Grid2State)
    (i j : ℕ)
    (hbad : isBad ref (st.g i j) = true)
    (hnone : ∀ p ∈ neighbors2d X Y i j, validVal ref (st.g p.1 p.2) = none) :
    repair2dStep X Y ref st (i, j) =
      { g := upd2 st.g i j (some (-10000)), warnings := st.warnings + 1 } := by
  have e1 := hnone ((pyMod ((i : ℤ) + 1) X, j)) (by simp [neighbors2d])
  have e2 := hnone ((pyMod ((i : ℤ) - 1) X, j)) (by simp [neighbors2d])
  have e3 := hnone ((i, pyMod ((j : ℤ) + 1) Y)) (by simp [neighbors2d])
  have e4 := hnone ((i, pyMod ((j : ℤ) - 1) Y)) (by simp [neighbors2d])
  have hvals : neighborVals X Y ref st.g i j = [] := by
    simp only [neighborVals, neighbors2d, List.map_cons, List.map_nil] at e1 e2 e3 e4 ⊢
    simp [e1, e2, e3, e4]
  simp [repair2dStep, hbad, hvals]

/-! ### Token-scanner lemmas (`to_vector`) -/

theorem takeDigits_append (ds rest : List Char)
    (hds : ∀ c ∈ ds, c.isDigit = true)
    (hrest : ∀ c, rest.head? = some c → c.isDigit = false) :
    takeDigits (ds ++ rest) = (ds, rest) := by
  induction ds with
  | nil =>
    simp only [List.nil_append]
    cases rest with
    | nil => rfl
    | cons c cs =>
      have hc := hrest c rfl
      simp [takeDigits, hc]
  | cons d ds ih =>
    have hd := hds d (by simp)
    simp only [List.cons_append, takeDigits, hd, if_true, List.append_eq]
    rw [ih (fun c hc => hds c (by simp [hc]))]

theorem matchBody_complete_nofrac (ds rest : List Char)
    (hdig : ∀ c ∈ ds, c.isDigit = true)
    (hrest : ∀ c, rest.head? = some c → c.isDigit = false ∧ c ≠ '.') :
    matchBody (ds ++ rest) = (ds, rest) := by
  have h1 := takeDigits_append ds rest hdig (fun c hc => (hrest c hc).1)
  unfold matchBody
  rw [h1]
  cases rest with
  | nil => rfl
  | cons c cs =>
    have hc := hrest c rfl
    split
    next r2 heq =>
      injection heq with he1 he2
      exact absurd he1 hc.2
    next => rfl

theorem matchBody_complete_frac (ds f rest : List Char)
    (hdig : ∀ c ∈ ds, c.isDigit = true)
    (hf : ∀ c ∈ f, c.isDigit = true)
    (hrest : ∀ c, rest.head? = some c → c.isDigit = false) :
    matchBody (ds ++ '.' :: (f ++ rest)) = (ds ++ '.' :: f, rest) := by
  have h1 : takeDigits (ds ++ '.' :: (f ++ rest)) = (ds, '.' :: (f ++ rest)) :=
    takeDigits_append ds _ hdig (fun c hc => by
      simp at hc
      subst hc
      rfl)
  have h2 := takeDigits_append f rest hf hrest
  unfold matchBody
  rw [h1]
  simp only []
  rw [h2]

theorem isDigit_ne_dash (c : Char) (h : c.isDigit = true) : c ≠ '-' := by
  intro he
  rw [he] at h
  exact absurd h (by decide)

theorem matchAt_complete (t : DecTok) (rest : List Char) (hwf : t.WF)
    (hrest : ∀ c, rest.head? = some c → c.isDigit = false ∧ c ≠ '.') :
    matchAt (t.chars ++ rest) = some (t.chars, rest) := by
  obtain ⟨neg, ip, frac⟩ := t
  obtain ⟨hne, hdig, hfr⟩ := hwf
  cases frac with
  | none =>
    cases ip with
    | nil => exact absurd rfl hne
    | cons d dsr =>
      have hd : d.isDigit = true := hdig d (by simp)
      have hbody := matchBody_complete_nofrac (d :: dsr) rest hdig hrest
      cases neg with
      | false =>
        have hchars : DecTok.chars ⟨false, d :: dsr, none⟩ = d :: dsr := by
          simp [DecTok.chars]
        rw [hchars, show (d :: dsr) ++ rest = d :: (dsr ++ rest) from rfl]
        simp only [matchAt]
        rw [if_neg (isDigit_ne_dash d hd), if_pos hd,
          show d :: (dsr ++ rest) = (d :: dsr) ++ rest from rfl, hbody]
      | true =>
        have hchars : DecTok.chars ⟨true, d :: dsr, none⟩
            = '-' :: (d :: dsr) := by
          simp [DecTok.chars]
        rw [hchars,
          show ('-' :: (d :: dsr)) ++ rest = '-' :: ((d :: dsr) ++ rest)
            from rfl]
        simp only [matchAt]
        rw [if_pos trivial]
        have hhead : (((d :: dsr) ++ rest).head?.map Char.isDigit).getD false
            = true := by
          simp [hd]
        rw [hhead, if_pos rfl, hbody]
  | some f =>
    cases ip with
    | nil => exact absurd rfl hne
    | cons d dsr =>
      have hd : d.isDigit = true := hdig d (by simp)
      have hbody : matchBody ((d :: dsr) ++ '.' :: (f ++ rest))
          = ((d :: dsr) ++ '.' :: f, rest) :=
        matchBody_complete_frac (d :: dsr) f rest hdig (hfr f rfl)
          (fun c hc => (hrest c hc).1)
      cases neg with
      | false =>
        have hchars : DecTok.chars ⟨false, d :: dsr, some f⟩
            = (d :: dsr) ++ '.' :: f := by
          simp [DecTok.chars]
        rw [hchars]
        have hl : ((d :: dsr) ++ '.' :: f) ++ rest
            = d :: (dsr ++ '.' :: (f ++ rest)) := by
          simp
        rw [hl]
        simp only [matchAt]
        rw [if_neg (isDigit_ne_dash d hd), if_pos hd]
        have hl2 : d :: (dsr ++ '.' :: (f ++ rest))
            = (d :: dsr) ++ '.' :: (f ++ rest) := by
          simp
        rw [hl2, hbody]
      | true =>
        have hchars : DecTok.chars ⟨true, d :: dsr, some f⟩
            = '-' :: ((d :: dsr) ++ '.' :: f) := by
          simp [DecTok.chars]
        rw [hchars]
        have hl : ('-' :: ((d :: dsr) ++ '.' :: f)) ++ rest
            = '-' :: ((d :: dsr) ++ '.' :: (f ++ rest)) := by
          simp
        rw [hl]
        simp only [matchAt]
        rw [if_pos trivial]
        have hhead : ((((d :: dsr) ++ '.' :: (f ++ rest))).head?.map
            Char.isDigit).getD false = true := by
          simp [hd]
        rw [hhead, if_pos rfl, hbody]

theorem matchAt_sep_none (sep : Char) (rest : List Char)
    (h1 : sep.isDigit = false) (h2 : sep ≠ '-') :
    matchAt (sep :: rest) = none := by
  simp [matchAt, h1, h2]

theorem finditerAux_congr (fuel1 : ℕ) :
    ∀ (l : List Char) (fuel2 : ℕ), l.length ≤ fuel1 → l.length ≤ fuel2 →
      finditerAux fuel1 l = finditerAux fuel2 l := by
  induction fuel1 using Nat.strong_induction_on with
  | _ fuel1 ih =>
    intro l fuel2 h1 h2
    cases fuel1 with
    | zero =>
      have hl : l = [] := by
        cases l with
        | nil => rfl
        | cons c cs => simp at h1
      subst hl
      cases fuel2 with
      | zero => rfl
      | succ f2 => simp [finditerAux, matchAt]
    | succ f1 =>
      cases fuel2 with
      | zero =>
        have hl : l = [] := by
          cases l with
          | nil => rfl
          | cons c cs => simp at h2
        subst hl
        simp [finditerAux, matchAt]
      | succ f2 =>
        simp only [finditerAux]
        cases hm : matchAt l with
        | some p =>
          obtain ⟨tok, rest⟩ := p
          have hrl := matchAt_rest_length l tok rest hm
          show tok :: finditerAux f1 rest = tok :: finditerAux f2 rest
          exact congrArg _ (ih f1 (by omega) rest f2 (by omega) (by omega))
        | none =>
          cases l with
          | nil => rfl
          | cons c cs =>
            simp only [List.length_cons] at h1 h2
            show finditerAux f1 cs = finditerAux f2 cs
            exact ih f1 (by omega) cs f2 (by omega) (by omega)

theorem finditer_eq_some (l tok rest : List Char)
    (h : matchAt l = some (tok, rest)) :
    finditer l = tok :: finditer rest := by
  unfold finditer
  cases l with
  | nil => simp [matchAt] at h
  | cons c cs =>
    simp only [List.length_cons, finditerAux, h]
    congr 1
    have hrl := matchAt_rest_length (c :: cs) tok rest h
    simp only [List.length_cons] at hrl
    exact finditerAux_congr cs.length rest rest.length (by omega) (le_refl _)

theorem finditer_cons_nomatch (c : Char) (cs : List Char)
    (h : matchAt (c :: cs) = none) : finditer (c :: cs) = finditer cs := by
  unfold finditer
  simp only [List.length_cons, finditerAux, h]

theorem finditer_joinSep (sep : Char)
    (hd : sep.isDigit = false) (hdot : sep ≠ '.') (hdash : sep ≠ '-') :
    ∀ ts : List DecTok, (∀ t ∈ ts, t.WF) →
      finditer (joinSep sep ts) = ts.map DecTok.chars := by
  intro ts
  induction ts with
  | nil => intro _; rfl
  | cons t ts ih =>
    intro hwf
    cases ts with
    | nil =>
      simp only [joinSep]
      have hm := matchAt_complete t [] (hwf t (by simp))
        (fun c hc => by simp at hc)
      rw [List.append_nil] at hm
      rw [finditer_eq_some _ _ _ hm]
      rfl
    | cons t2 ts2 =>
      simp only [joinSep]
      have hm := matchAt_complete t (sep :: joinSep sep (t2 :: ts2))
        (hwf t (by simp))
        (fun c hc => by
          simp only [List.head?] at hc
          injection hc with he
          rw [← he]
          exact ⟨hd, hdot⟩)
      rw [finditer_eq_some _ _ _ hm,
        finditer_cons_nomatch sep _ (matchAt_sep_none sep _ hd hdash),
        ih (fun x hx => hwf x (by simp [hx]))]
      rfl

/-- C9, counterexample to the claim as stated: the string `"a1b2"`
contains no whitespace- or comma-separated signed decimal token at all
(its only separator-delimited token is `a1b2`, which is not a signed
decimal), yet `to_vector` returns `[1.0, 2.0]` — the scan extracts the
decimal substrings `1` and `2` wherever they occur rather than
rejecting or ignoring the malformed input. -/
theorem to_vector_counterexample :
    to_vector "a1b2" = [1, 2] ∧
    claimTokens "a1b2".data = [['a', '1', 'b', '2']] ∧
    isSignedDecimal ['a', '1', 'b', '2'] = false := by
  refine ⟨by decide, by decide, by decide⟩

/-- C9, amended.  `to_vector` scans the input with the pattern
`-?\d+\.?\d*` and returns the floats of *all* matches wherever they
occur, with no requirement that matches be separated by whitespace or
commas; on the claimed inputs it agrees with the claim: for every list
of signed decimal tokens joined by a single space or comma separator,
`to_vector` returns exactly those tokens' values in order. -/
theorem to_vector_amended (sep : Char) (ts : List DecTok)
    (hsep : sep = ' ' ∨ sep = ',') (hwf : ∀ t ∈ ts, t.WF) :
    to_vector (String.mk (joinSep sep ts))
      = ts.map (fun t => tokToRat t.chars) := by
  have hd : sep.isDigit = false := by rcases hsep with rfl | rfl <;> decide
  have hdot : sep ≠ '.' := by rcases hsep with rfl | rfl <;> decide
  have hdash : sep ≠ '-' := by rcases hsep with rfl | rfl <;> decide
  unfold to_vector
  rw [show (String.mk (joinSep sep ts)).data = joinSep sep ts from rfl,
    finditer_joinSep sep hd hdot hdash ts hwf, List.map_map]
  rfl

/-- Witness for C9's amended theorem: the space-separated input
`"1 -2.5"` yields `[1.0, -2.5]`. -/
theorem to_vector_amended_witness :
    to_vector "1 -2.5" = [1, -(5 / 2 : ℚ)] := by
  have h := to_vector_amended ' '
    [⟨false, ['1'], none⟩, ⟨true, ['2'], some ['5']⟩]
    (Or.inl rfl)
    (by
      intro t ht
      simp only [List.mem_cons, List.not_mem_nil, or_false] at ht
      rcases ht with rfl | rfl
      · exact ⟨by simp, by intro c hc; simp at hc; rw [hc]; rfl,
          by intro ds hds; simp at hds⟩
      · refine ⟨by simp, by intro c hc; simp at hc; rw [hc]; rfl, ?_⟩
        intro ds hds
        simp only [Option.some.injEq] at hds
        intro c hc
        rw [← hds] at hc
        simp at hc
        rw [hc]
        rfl)
  have hs : String.mk (joinSep ' '
      [⟨false, ['1'], none⟩, ⟨true, ['2'], some ['5']⟩]) = "1 -2.5" := rfl
  rw [hs] at h
  rw [h]
  have h1 : tokToRat (DecTok.chars ⟨false, ['1'], none⟩) = 1 := by decide
  have d2 : digitsToNat ['2'] = 2 := rfl
  have d5 : digitsToNat ['5'] = 5 := rfl
  have h2 : tokToRat (DecTok.chars ⟨true, ['2'], some ['5']⟩) = -(5 / 2) := by
    rw [show tokToRat (DecTok.chars ⟨true, ['2'], some ['5']⟩)
        = -((digitsToNat ['2'] : ℚ) + (digitsToNat ['5'] : ℚ)
            / 10 ^ (['5'].length)) from rfl, d2, d5]
    norm_num
  simp only [List.map_cons, List.map_nil, h1, h2]

/-- C7: whenever the raw GSF grid's column count is neither 2 nor 3,
`construct_gsf` raises the invalid-dimensionality `ValueError` without
selecting any fitting strategy. -/
theorem construct_gsf_guard (n_columns : ℕ) (dims : ℤ) (disl_type : String)
    (do_fourier : Bool) (h2 : n_columns ≠ 2) (h3 : n_columns ≠ 3) :
    construct_gsf n_columns dims disl_type do_fourier =
      .valueError "GSF grid has invalid number of dimensions" := by
  simp [construct_gsf, h2, h3]

/-- Witness for C7: a grid with 4 columns raises the
invalid-dimensionality error. -/
theorem construct_gsf_guard_witness :
    construct_gsf 4 2 "edge" false =
      .valueError "GSF grid has invalid number of dimensions" :=
  construct_gsf_guard 4 2 "edge" false (by decide) (by decide)

/-! ### Configuration-resolution lemmas -/

/-- C5, counterexample to the claim as stated: the literal `"abc"` on
an int-typed card fails coercion, yet `change_type` reports no error —
the `except ValueError` body does nothing when the value contains
neither `np.pi` nor `np.e`, and the card silently keeps the
unconverted string `"abc"`. -/
theorem change_type_counterexample :
    change_type CardType.int "abc" = .ok (.str "abc") ∧
    coerce CardType.int "abc" = none := by
  refine ⟨by rfl, by decide⟩

/-- C5, amended.  When a literal card value fails its type coercion,
no type-coercion error is reported: if the value contains the symbolic
literal `np.pi` or `np.e` it is `eval`uated (in particular the float
literal `np.pi` becomes the float64 value of π); otherwise the
exception handler falls through and the value is silently left as the
unconverted string in the tree. -/
theorem change_type_amended :
    (∀ (ty : CardType) (s : String), coerce ty s = none →
      (containsSub s "np.pi" || containsSub s "np.e") = false →
      change_type ty s = .ok (.str s)) ∧
    (∀ (ty : CardType) (s : String), coerce ty s = none →
      (containsSub s "np.pi" || containsSub s "np.e") = true →
      change_type ty s = npEval s) ∧
    change_type CardType.float "np.pi" = .ok (.float ratPi) := by
  refine ⟨?_, ?_, by rfl⟩
  · intro ty s h1 h2
    simp [change_type, h1, h2]
  · intro ty s h1 h2
    simp [change_type, h1, h2]

/-- Witness for C5's amended theorem: a bool-typed card value `"yes"`
is left as the string `"yes"` with no error, and a float-typed
`"np.e"` is routed to `eval`. -/
theorem change_type_amended_witness :
    change_type CardType.toBool "yes" = .ok (.str "yes") ∧
    change_type CardType.float "np.e" = npEval "np.e" :=
  ⟨change_type_amended.1 CardType.toBool "yes" (by decide) (by decide),
   change_type_amended.2.1 CardType.float "np.e" (by decide) (by decide)⟩

theorem assocGet_set_self {α : Type} (l : List (String × α)) (k : String)
    (v : α) : assocGet (assocSet l k v) k = some v := by
  induction l with
  | nil => simp [assocSet, assocGet]
  | cons p rest ih =>
    obtain ⟨k2, v2⟩ := p
    by_cases hk : k2 = k
    · simp [assocSet, hk, assocGet]
    · simp [assocSet, hk, assocGet, ih]

theorem assocGet_set_ne {α : Type} (l : List (String × α)) (k k' : String)
    (v : α) (h : k ≠ k') :
    assocGet (assocSet l k v) k' = assocGet l k' := by
  induction l with
  | nil => simp [assocSet, assocGet, h]
  | cons p rest ih =>
    obtain ⟨k2, v2⟩ := p
    by_cases hk : k2 = k
    · subst hk
      simp [assocSet, assocGet, h]
    · simp [assocSet, hk, assocGet, ih]

theorem treeGet_set_self (t : Tree) (nl card : String) (v : PyVal) :
    treeGet (treeSet t nl card v) nl card = some v := by
  unfold treeGet treeSet
  cases hg : assocGet t nl with
  | some cards => simp [assocGet_set_self]
  | none => simp [assocGet_set_self, assocGet]

theorem treeGet_set_ne (t : Tree) (nl card nl' card' : String) (v : PyVal)
    (h : ¬(nl' = nl ∧ card' = card)) :
    treeGet (treeSet t nl card v) nl' card' = treeGet t nl' card' := by
  by_cases hnl : nl' = nl
  · subst hnl
    have hcard : card ≠ card' := fun he => h ⟨rfl, he.symm⟩
    unfold treeGet treeSet
    cases hg : assocGet t nl' with
    | some cards => simp [hg, assocGet_set_self, assocGet_set_ne _ _ _ _ hcard]
    | none => simp [hg, assocGet_set_self, assocGet, hcard]
  · have hnl' : nl ≠ nl' := fun he => hnl he.symm
    unfold treeGet treeSet
    cases hg : assocGet t nl with
    | some cards => simp [assocGet_set_ne _ _ _ _ hnl']
    | none => simp [assocGet_set_ne _ _ _ _ hnl']

theorem treeGet_set_mono (t : Tree) (nl card : String) (v : PyVal)
    (nl' card' : String) (h : (treeGet t nl' card').isSome = true) :
    (treeGet (treeSet t nl card v) nl' card').isSome = true := by
  by_cases hc : nl' = nl ∧ card' = card
  · obtain ⟨rfl, rfl⟩ := hc
    rw [treeGet_set_self]
    rfl
  · rw [treeGet_set_ne _ _ _ _ _ _ hc]
    exact h

theorem from_mapping_ok_shape (t : Tree) (nl card : String) (t' : Tree)
    (h : from_mapping t nl card = .ok t') :
    ∃ v, t' = treeSet t nl card v := by
  unfold from_mapping at h
  split at h
  · exact absurd h (by simp)
  · split at h
    · exact absurd h (by simp)
    · split at h
      · exact absurd h (by simp)
      · split at h
        · cases h
          exact ⟨_, rfl⟩
        · exact absurd h (by simp)
  · exact absurd h (by simp)

theorem change_or_map_ok_shape (t : Tree) (nl card : String) (ty : CardType)
    (t' : Tree) (h : change_or_map t nl card ty = .ok t') :
    ∃ v, t' = treeSet t nl card v := by
  unfold change_or_map at h
  split at h
  · exact absurd h (by simp)
  · split at h
    · exact from_mapping_ok_shape _ _ _ _ h
    · split at h
      · cases h
        exact ⟨_, rfl⟩
      · exact absurd h (by simp)
  · exact absurd h (by simp)

theorem resolve_card_ok_props (t : Tree) (nl : String) (c : Card) (t' : Tree)
    (h : resolve_card t nl c = .ok t') :
    (treeGet t' nl c.name).isSome = true ∧
      ∀ nl2 card2, ¬(nl2 = nl ∧ card2 = c.name) →
        treeGet t' nl2 card2 = treeGet t nl2 card2 := by
  unfold resolve_card at h
  split at h
  next t1 hcm =>
    cases h
    obtain ⟨v, rfl⟩ := change_or_map_ok_shape _ _ _ _ _ hcm
    exact ⟨by rw [treeGet_set_self]; rfl,
      fun nl2 card2 hne => treeGet_set_ne _ _ _ _ _ _ hne⟩
  next msg hcm =>
    split at h
    · exact absurd h (by simp)
    · split at h
      next s hstr =>
        split at h
        · obtain ⟨w, hw⟩ := from_mapping_ok_shape _ _ _ _ h
          subst hw
          refine ⟨by rw [treeGet_set_self]; rfl, fun nl2 card2 hne => ?_⟩
          rw [treeGet_set_ne _ _ _ _ _ _ hne, treeGet_set_ne _ _ _ _ _ _ hne]
        · cases h
          exact ⟨by rw [treeGet_set_self]; rfl,
            fun nl2 card2 hne => treeGet_set_ne _ _ _ _ _ _ hne⟩
      next d hd =>
        cases h
        exact ⟨by rw [treeGet_set_self]; rfl,
          fun nl2 card2 hne => treeGet_set_ne _ _ _ _ _ _ hne⟩
  next e hne hcm => exact absurd h (by simp)

theorem resolve_card_presence_mono (t : Tree) (nl : String) (c : Card)
    (t' : Tree) (h : resolve_card t nl c = .ok t') (nl2 card2 : String)
    (hp : (treeGet t nl2 card2).isSome = true) :
    (treeGet t' nl2 card2).isSome = true := by
  obtain ⟨h1, h2⟩ := resolve_card_ok_props t nl c t' h
  by_cases hc : nl2 = nl ∧ card2 = c.name
  · obtain ⟨rfl, rfl⟩ := hc
    exact h1
  · rw [h2 nl2 card2 hc]
    exact hp

theorem handle_cards_presence_mono (nl : String) (cards : List Card) :
    ∀ (t t' : Tree), handle_cards nl cards t = .ok t' →
      ∀ nl2 card2, (treeGet t nl2 card2).isSome = true →
        (treeGet t' nl2 card2).isSome = true := by
  induction cards with
  | nil =>
    intro t t' h nl2 card2 hp
    simp only [handle_cards, List.foldlM_nil] at h
    cases h
    exact hp
  | cons c cs ih =>
    intro t t' h nl2 card2 hp
    simp only [handle_cards, List.foldlM_cons] at h
    cases hr : resolve_card t nl c with
    | error e =>
      rw [hr] at h
      exact absurd h (by simp [Bind.bind, Except.bind])
    | ok t1 =>
      rw [hr] at h
      simp only [Bind.bind, Except.bind] at h
      exact ih t1 t' h nl2 card2
        (resolve_card_presence_mono t nl c t1 hr nl2 card2 hp)

theorem resolve_card_missing (t : Tree) (nl : String) (c : Card)
    (hmc : c.default = .none) (habs : treeGet t nl c.name = none) :
    resolve_card t nl c = .error (.valueError
      ("No value supplied for mission-critical variable "
        ++ c.name ++ ".")) := by
  unfold resolve_card change_or_map
  rw [habs, hmc]
  simp

/-- C4: over any input parameter dictionary and any namelist schema
with pairwise-distinct card names — as the six fixed schemas of
`handle_pn_control` have — (i) when the card loop succeeds, every
declared card is present in the resolved tree with a value; (ii) when a
mission-critical card (default `None`) has no supplied value, the loop
never succeeds; and (iii) the failure at such a card is exactly the
`ValueError` naming the missing mission-critical card. -/
theorem handle_pn_cards_complete :
    (∀ (nl : String) (cards : List Card) (t t' : Tree),
      handle_cards nl cards t = .ok t' →
      ∀ c ∈ cards, (treeGet t' nl c.name).isSome = true) ∧
    (∀ (nl : String) (cards : List Card),
      ∀ (t : Tree) (c : Card),
      (cards.map Card.name).Nodup → c ∈ cards → c.default = .none →
      treeGet t nl c.name = none →
      ∀ t', handle_cards nl cards t ≠ .ok t') ∧
    (∀ (t : Tree) (nl : String) (c : Card),
      c.default = .none → treeGet t nl c.name = none →
      resolve_card t nl c = .error (.valueError
        ("No value supplied for mission-critical variable "
          ++ c.name ++ "."))) := by
  refine ⟨?_, ?_, fun t nl c => resolve_card_missing t nl c⟩
  · intro nl cards
    induction cards with
    | nil =>
      intro t t' h c hc
      simp at hc
    | cons c0 cs ih =>
      intro t t' h c hc
      simp only [handle_cards, List.foldlM_cons] at h
      cases hr : resolve_card t nl c0 with
      | error e =>
        rw [hr] at h
        exact absurd h (by simp [Bind.bind, Except.bind])
      | ok t1 =>
        rw [hr] at h
        simp only [Bind.bind, Except.bind] at h
        rcases List.mem_cons.mp hc with rfl | hcs
        · exact handle_cards_presence_mono nl cs t1 t' h nl c.name
            (resolve_card_ok_props t nl c t1 hr).1
        · exact ih t1 t' h c hcs
  · intro nl cards
    induction cards with
    | nil =>
      intro t c _ hc
      simp at hc
    | cons c0 cs ih =>
      intro t c hnd hc hmc habs t' h
      simp only [handle_cards, List.foldlM_cons] at h
      rcases List.mem_cons.mp hc with rfl | hcs
      · rw [resolve_card_missing t nl c hmc habs] at h
        exact absurd h (by simp [Bind.bind, Except.bind])
      · cases hr : resolve_card t nl c0 with
        | error e =>
          rw [hr] at h
          exact absurd h (by simp [Bind.bind, Except.bind])
        | ok t1 =>
          rw [hr] at h
          simp only [Bind.bind, Except.bind] at h
          simp only [List.map_cons, List.nodup_cons] at hnd
          have hname : ¬(nl = nl ∧ c.name = c0.name) := by
            rintro ⟨-, he⟩
            exact hnd.1 (he ▸ List.mem_map_of_mem Card.name hcs)
          have habs1 : treeGet t1 nl c.name = none := by
            rw [(resolve_card_ok_props t nl c0 t1 hr).2 nl c.name hname]
            exact habs
          exact ih t1 c hnd.2 hcs hmc habs1 t' h

/-- Witness for C4: the absent mission-critical card `gsf_file` of the
`&control` schema produces the `ValueError` naming it, and a defaulted
card ends up present in the tree after a successful loop. -/
theorem handle_pn_cards_complete_witness :
    resolve_card [("control", [])] "control" ⟨"gsf_file", .none, .str⟩
      = .error (.valueError
        "No value supplied for mission-critical variable gsf_file.") ∧
    (treeGet [("properties", [("width", PyVal.bool false)])]
      "properties" "width").isSome = true := by
  constructor
  · exact handle_pn_cards_complete.2.2 [("control", [])] "control"
      ⟨"gsf_file", .none, .str⟩ rfl rfl
  · exact handle_pn_cards_complete.1 "properties"
      [⟨"width", .bool false, .toBool⟩] [("properties", [])]
      [("properties", [("width", PyVal.bool false)])] (by rfl)
      ⟨"width", .bool false, .toBool⟩ (by simp)

theorem takeDigits_append_eq (l : List Char) :
    (takeDigits l).1 ++ (takeDigits l).2 = l := by
  induction l with
  | nil => rfl
  | cons c cs ih =>
    simp only [takeDigits]
    split
    · simpa using ih
    · rfl

theorem takeDigits_digits (l : List Char) :
    ∀ c ∈ (takeDigits l).1, c.isDigit = true := by
  induction l with
  | nil => simp [takeDigits]
  | cons c cs ih =>
    simp only [takeDigits]
    split
    next hd =>
      intro x hx
      simp only [List.mem_cons] at hx
      rcases hx with rfl | hx
      · exact hd
      · exact ih x hx
    · simp

theorem matchBody_chars (l : List Char) :
    ∀ c ∈ (matchBody l).1, c.isDigit = true ∨ c = '.' := by
  unfold matchBody
  split
  next r2 heq =>
    intro c hc
    simp only [List.mem_append, List.mem_cons] at hc
    rcases hc with hc | rfl | hc
    · exact Or.inl (takeDigits_digits l c hc)
    · exact Or.inr rfl
    · exact Or.inl (takeDigits_digits r2 c hc)
  next =>
    intro c hc
    exact Or.inl (takeDigits_digits l c hc)

theorem matchBody_append_eq (l : List Char) :
    (matchBody l).1 ++ (matchBody l).2 = l := by
  unfold matchBody
  split
  next r2 heq =>
    have h1 := takeDigits_append_eq l
    have h2 := takeDigits_append_eq r2
    simp only []
    rw [List.append_assoc, List.cons_append]
    rw [show (takeDigits r2).1 ++ (takeDigits r2).2 = r2 from h2, ← heq]
    exact h1
  next r1 heq =>
    have h1 := takeDigits_append_eq l
    simpa using h1

theorem matchAt_chars (l tok rest : List Char)
    (h : matchAt l = some (tok, rest)) :
    ∀ c ∈ tok, c.isDigit = true ∨ c = '-' ∨ c = '.' := by
  cases l with
  | nil => simp [matchAt] at h
  | cons c cs =>
    simp only [matchAt] at h
    split at h
    · split at h
      · cases h
        intro x hx
        simp only [List.mem_cons] at hx
        rcases hx with rfl | hx
        · exact Or.inr (Or.inl rfl)
        · rcases matchBody_chars cs x hx with hd | hdot
          · exact Or.inl hd
          · exact Or.inr (Or.inr hdot)
      · simp at h
    · split at h
      · cases h
        intro x hx
        rcases matchBody_chars (c :: cs) x hx with hd | hdot
        · exact Or.inl hd
        · exact Or.inr (Or.inr hdot)
      · simp at h

theorem matchAt_append_eq (l tok rest : List Char)
    (h : matchAt l = some (tok, rest)) : tok ++ rest = l := by
  cases l with
  | nil => simp [matchAt] at h
  | cons c cs =>
    simp only [matchAt] at h
    split at h
    next hc =>
      split at h
      · cases h
        rw [List.cons_append, matchBody_append_eq cs, hc]
      · simp at h
    · split at h
      · cases h
        exact matchBody_append_eq (c :: cs)
      · simp at h

theorem hasSubAux_map_false (l : List Char) (h : ∀ c ∈ l, c ≠ 'm') :
    hasSubAux ['m', 'a', 'p'] l = false := by
  induction l with
  | nil => rfl
  | cons c cs ih =>
    have hc : c ≠ 'm' := h c (by simp)
    have hc' : ('m' == c) = false := by
      simp [hc.symm]
    simp only [hasSubAux, List.isPrefixOf, hc', Bool.false_and,
      Bool.false_or]
    exact ih fun x hx => h x (by simp [hx])

theorem parseFloatQ_no_map (s : String) (q : ℚ)
    (h : parseFloatQ s = some q) : containsSub s "map" = false := by
  unfold parseFloatQ at h
  split at h
  next tok heq =>
    have hdata : tok ++ [] = s.data := matchAt_append_eq s.data tok [] heq
    rw [List.append_nil] at hdata
    have hchars := matchAt_chars s.data tok [] heq
    unfold containsSub
    rw [show ("map".data) = ['m', 'a', 'p'] from rfl, ← hdata]
    refine hasSubAux_map_false tok fun c hc => ?_
    rcases hchars c hc with hd | rfl | rfl
    · intro he
      rw [he] at hd
      exact absurd hd (by decide)
    · decide
    · decide
  next => exact absurd h (by simp)

/-- C8: when the `&struc` namelist supplies a parseable float literal
for card `a` and omits `b`, `burgers` and `spacing`, the card loop
installs the identity-mapping defaults and evaluates each one against
the already-resolved value of `a`, so the resolved `burgers` (and `b`
and `spacing`) equal `a`'s value. -/
theorem struc_default_mapping (s : String) (q : ℚ)
    (h : parseFloatQ s = some q) :
    handle_cards "struc" struc_cards [("struc", [("a", PyVal.str s)])]
      = .ok [("struc", [("a", .float q), ("b", .float q),
          ("burgers", .float q), ("spacing", .float q)])] ∧
    treeGet [("struc", [("a", PyVal.float q), ("b", .float q),
        ("burgers", .float q), ("spacing", .float q)])] "struc" "burgers"
      = some (.float q) := by
  have hnm : containsSub s "map" = false := parseFloatQ_no_map s q h
  have hpm : parseMapExpr "map struc > a: x -> x"
      = some ("struc", "a", "x", "x") := by decide
  have hcs : containsSub "map struc > a: x -> x" "map" = true := by decide
  have e1 : resolve_card [("struc", [("a", PyVal.str s)])] "struc"
      ⟨"a", .none, .float⟩ = .ok [("struc", [("a", PyVal.float q)])] := by
    unfold resolve_card change_or_map
    simp [treeGet, assocGet, hnm, change_type, coerce, h, treeSet, assocSet]
  have e2 : resolve_card [("struc", [("a", PyVal.float q)])] "struc"
      ⟨"b", .str "map struc > a: x -> x", .float⟩
      = .ok [("struc", [("a", PyVal.float q), ("b", PyVal.float q)])] := by
    unfold resolve_card change_or_map
    simp [treeGet, assocGet, hcs, hpm, from_mapping, evalMapExpr,
      treeSet, assocSet]
  have e3 : resolve_card
      [("struc", [("a", PyVal.float q), ("b", PyVal.float q)])] "struc"
      ⟨"burgers", .str "map struc > a: x -> x", .float⟩
      = .ok [("struc", [("a", PyVal.float q), ("b", PyVal.float q),
          ("burgers", PyVal.float q)])] := by
    unfold resolve_card change_or_map
    simp [treeGet, assocGet, hcs, hpm, from_mapping, evalMapExpr,
      treeSet, assocSet]
  have e4 : resolve_card
      [("struc", [("a", PyVal.float q), ("b", PyVal.float q),
        ("burgers", PyVal.float q)])] "struc"
      ⟨"spacing", .str "map struc > a: x -> x", .float⟩
      = .ok [("struc", [("a", PyVal.float q), ("b", PyVal.float q),
          ("burgers", PyVal.float q), ("spacing", PyVal.float q)])] := by
    unfold resolve_card change_or_map
    simp [treeGet, assocGet, hcs, hpm, from_mapping, evalMapExpr,
      treeSet, assocSet]
  refine ⟨?_, by simp [treeGet, assocGet]⟩
  simp only [handle_cards, struc_cards, List.foldlM_cons, List.foldlM_nil]
  rw [e1]
  simp only [Bind.bind, Except.bind]
  rw [e2]
  simp only []
  rw [e3]
  simp only []
  rw [e4]
  rfl

/-- Witness for C8: with `a = "4"` in the `&struc` namelist and the
other cards absent, `burgers` resolves to the float `4.0`. -/
theorem struc_default_mapping_witness :
    handle_cards "struc" struc_cards [("struc", [("a", PyVal.str "4")])]
      = .ok [("struc", [("a", .float 4), ("b", .float 4),
          ("burgers", .float 4), ("spacing", .float 4)])] ∧
    treeGet [("struc", [("a", PyVal.float 4), ("b", .float 4),
        ("burgers", .float 4), ("spacing", .float 4)])] "struc" "burgers"
      = some (.float 4) :=
  struc_default_mapping "4" 4 (by decide)

/-- Witness for C6: on an all-NaN 3×3 grid state the step at `(0, 0)`
installs the sentinel and records one warning. -/
theorem gsf_repair2d_sentinel_witness :
    repair2dStep 2 2 none { g := fun _ _ => none, warnings := 0 } (0, 0) =
      { g := upd2 (fun _ _ => none) 0 0 (some (-10000)), warnings := 1 } :=
  gsf_repair2d_sentinel 2 2 none { g := fun _ _ => none, warnings := 0 } 0 0
    rfl (fun _ _ => rfl)

end PyDis
